import Mathlib

/-!
# Verification of `dlc2kinematics/preprocess.py`

Shallow embedding of the two functions of `src/dlc2kinematics/preprocess.py`
(`load_data`, `smooth_trajectory`) and proofs of the claims about them.

Modelling decisions:
* A pandas multiindex DataFrame is a list of columns; each column carries its
  three-level label (`scorer`, `bodyparts`, `coords`) and its list of cell
  values (one value per row, in time order).  Cell values are modelled as `Int`
  (the numeric content is irrelevant to every claim; the Savitzky–Golay kernel
  is kept abstract, see `Kernel` below).
* `scipy.signal.savgol_filter` is external library code, not in the repository.
  Its numeric kernel is a parameter (`Kernel`); its argument validation and its
  shape behaviour (per-column application along axis 0) are modelled from the
  spec (§4.2 failure clause: "even length, order ≥ window, negative values")
  and scipy's documented contract.
* Python exceptions become `Except Err`; file writes become an explicit trace
  of `(path, frame)` pairs returned next to the result; the ambient current
  working directory (`os.getcwd()`) is an explicit parameter `cwd`.
* For the aliasing claim (the caller's frame is never mutated) a second
  rendering `smooth_trajectory_heap` makes Python's object mutation explicit:
  a heap of DataFrame objects, references as indices, `df.copy()` as an
  allocation, `df.loc[...] = ...` as a heap write through the local reference.
-/

namespace DLC2Kinematics

/-- One entry of the three-level column multiindex:
levels `"scorer"`, `"bodyparts"`, `"coords"`. -/
structure MultiCol where
  scorer : String
  bodyparts : String
  coords : String
  deriving DecidableEq, Repr

/-- One column of the frame: its multiindex label and its cell values,
one per row (row order is the time axis). -/
structure Column where
  label : MultiCol
  values : List Int
  deriving DecidableEq, Repr

/-- A pandas DataFrame: the ordered list of its columns. -/
abbrev DataFrame := List Column

/-- Python exceptions that the embedded code can raise. -/
inductive Err where
  /-- `ValueError` raised by `scipy.signal.savgol_filter` on an invalid
  window/order combination (the spec's `InvalidParameter`). -/
  | invalidParameter
  /-- `IndexError` from subscripting an empty sequence (`bodyparts[0]`,
  `unique()[0]`). -/
  | indexError
  deriving DecidableEq, Repr

/-- The numeric Savitzky–Golay kernel, abstracted: given
`filter_window`, `order`, `deriv` it maps one column of samples to the
filtered column.  scipy's documented contract (`mode='interp'`, the default
used here) preserves the column length; theorems that need that take it as a
hypothesis. -/
abbrev Kernel := Int → Int → Int → List Int → List Int

/-- Modelled from the spec: `scipy.signal.savgol_filter(data, filter_window,
order, deriv, axis=0)` is external library code (not under `src/`).  Per the
spec (§4.1, §4.2) the window must be a positive odd integer and the order a
non-negative integer strictly less than the window; violations fail with
`InvalidParameter`.  On valid parameters the filter is applied to each column
independently along the row axis (axis 0).  The validation does not depend on
the data, matching scipy (parameters are checked before the data is touched). -/
def savgol_filter (kernel : Kernel) (filter_window order deriv : Int)
    (cols : List (List Int)) : Except Err (List (List Int)) :=
  if filter_window ≤ 0 ∨ filter_window % 2 = 0 then
    .error .invalidParameter
  else if order < 0 ∨ filter_window ≤ order then
    .error .invalidParameter
  else
    .ok (cols.map (kernel filter_window order deriv))

/-- `df.loc[:, m]` for a boolean column mask `m`: the sub-frame of the columns
at the positions where the mask is true, in order. -/
def locCols : DataFrame → List Bool → DataFrame
  | [], _ => []
  | _ :: _, [] => []
  | c :: cs, b :: ms => if b then c :: locCols cs ms else locCols cs ms

/-- `df.loc[:, m] = vs` for a boolean column mask `m`: positional assignment of
the new value columns `vs` into the masked positions, all other columns kept. -/
def locSet : DataFrame → List Bool → List (List Int) → DataFrame
  | [], _, _ => []
  | cs, [], _ => cs
  | c :: cs, true :: ms, v :: vs => { c with values := v } :: locSet cs ms vs
  | c :: cs, true :: ms, [] => c :: locSet cs ms []
  | c :: cs, false :: ms, vs => c :: locSet cs ms vs

/-- `Index.unique().to_list()`: first-encounter order, duplicates removed. -/
def uniqueList : List String → List String
  | [] => []
  | x :: xs => x :: (uniqueList xs).filter (fun y => y ≠ x)

/-- Lines 115–118: the default output filename
`"dataFrame_smooth_" + df.columns.get_level_values("scorer").unique()[0]`;
subscripting the unique scorers of an empty frame raises `IndexError`. -/
def defaultName (df : DataFrame) : Except Err String :=
  match uniqueList (df.map (fun c => c.label.scorer)) with
  | [] => .error .indexError
  | s :: _ => .ok ("dataFrame_smooth_" ++ s)

/-- Lines 113–118: resolve `destfolder` (falsy ⇒ `os.getcwd()`, the `cwd`
parameter) and `output_filename` (falsy ⇒ `defaultName`). -/
def resolveDest (destfolder : Option String) (cwd : String) : String :=
  match destfolder with
  | none => cwd
  | some s => if s = "" then cwd else s

def resolveName (output_filename : Option String) (df : DataFrame) :
    Except Err String :=
  match output_filename with
  | none => defaultName df
  | some s => if s = "" then defaultName df else .ok s

/-- `smooth_trajectory(df, bodyparts, filter_window, order, deriv, save,
output_filename, destfolder)`, lines 61–128 of `preprocess.py`.

Returns the result (`df_cut` or the raised exception) together with the trace
of file writes performed (line 122 `df_cut.to_hdf(...)`); `cwd` stands for
`os.getcwd()`.

Body, line by line:
* 102 `df = df.copy()` — value semantics (the mutation view is
  `smooth_trajectory_heap` below);
* 103 `xy = df.columns.get_level_values("coords") != "likelihood"`;
* 104–107 `bodyparts[0] == "all"` (raises `IndexError` on an empty list)
  selects the all-ones mask, otherwise
  `mask = df.columns.get_level_values("bodyparts").isin(bodyparts)`;
* 108 `to_smooth = xy & mask`;
* 109–111 `df.loc[:, to_smooth] = savgol_filter(df.loc[:, to_smooth], ...)`;
* 112 `df_cut = df.loc[:, mask]`;
* 113–118 destination/filename defaults (run regardless of `save`);
* 120–127 optional persistence; 128 `return df_cut`. -/
def smooth_trajectory (kernel : Kernel) (df : DataFrame) (bodyparts : List String)
    (filter_window order deriv : Int) (save : Bool)
    (output_filename destfolder : Option String) (cwd : String) :
    Except Err DataFrame × List (String × DataFrame) :=
  let df := df
  let xy := df.map (fun c => c.label.coords != "likelihood")
  match bodyparts with
  | [] => (.error .indexError, [])
  | b0 :: _ =>
    let mask :=
      if b0 = "all" then df.map (fun _ => true)
      else df.map (fun c => bodyparts.contains c.label.bodyparts)
    let to_smooth := List.zipWith (· && ·) xy mask
    match savgol_filter kernel filter_window order deriv
        ((locCols df to_smooth).map (fun c => c.values)) with
    | .error e => (.error e, [])
    | .ok newVals =>
      let df := locSet df to_smooth newVals
      let df_cut := locCols df mask
      let dest := resolveDest destfolder cwd
      match resolveName output_filename df with
      | .error e => (.error e, [])
      | .ok name =>
        if save then
          (.ok df_cut, [(dest ++ "/" ++ name ++ ".h5", df_cut)])
        else
          (.ok df_cut, [])

/-- `load_data(filename, smooth, filter_window, order)`, lines 12–58.
The deserialized frame (`pd.read_hdf(filename, "df_with_missing")`, line 43)
is the parameter `df`; reading itself is external file access.  Line 44 derives the
unique bodypart list, line 45 takes the first column's scorer label (raising
`IndexError` on a frame with no columns), lines 46–56 optionally delegate to
`smooth_trajectory` with the derived bodypart list, `deriv=0`, `save=False`. -/
def load_data (kernel : Kernel) (df : DataFrame) (smooth : Bool)
    (filter_window order : Int) (cwd : String) :
    Except Err (DataFrame × List String × String) :=
  let bodyparts := uniqueList (df.map (fun c => c.label.bodyparts))
  match df with
  | [] => .error .indexError
  | c0 :: _ =>
    let scorer := c0.label.scorer
    if smooth then
      match (smooth_trajectory kernel df bodyparts filter_window order 0
          false none none cwd).1 with
      | .error e => .error e
      | .ok df2 => .ok (df2, bodyparts, scorer)
    else
      .ok (df, bodyparts, scorer)

/-! ## Object-mutation view of `smooth_trajectory`

Python DataFrames are heap objects passed by reference; `df.loc[:, m] = ...`
mutates the object in place.  To settle the frame claim ("the caller's table
is never mutated") the function is rendered once more with that state made
explicit: a heap of DataFrame objects, references as indices into it,
`df.copy()` (line 102) as an allocation rebinding the local name, assignments
as heap writes through the local reference. -/

/-- The Python heap, restricted to DataFrame objects.  A reference is an index. -/
abbrev Heap := List DataFrame

/-- Dereference (out-of-range reads the empty frame; the theorems only use
in-range references). -/
def heapRead (σ : Heap) (r : Nat) : DataFrame := (σ.get? r).getD []

/-- In-place mutation of the object behind reference `r`. -/
def heapWrite (σ : Heap) (r : Nat) (d : DataFrame) : Heap := σ.set r d

/-- Allocate a fresh object, returning the new heap and its reference. -/
def heapAlloc (σ : Heap) (d : DataFrame) : Heap × Nat := (σ ++ [d], σ.length)

/-- Lines 102–118 and 128 of `smooth_trajectory`, with the Python object
mutation explicit.  `dfRef` is the caller's reference to the argument frame.
Line 102 `df = df.copy()` allocates a copy and rebinds the local name `df` to
it; line 109–111 writes the filtered values through that local reference; the
returned reference points at the freshly built `df_cut`.  File persistence
(lines 120–127) writes to the filesystem, not to any frame object, so it does
not appear in the heap.  Result: the returned reference or the raised
exception, next to the final heap. -/
def smooth_trajectory_heap (kernel : Kernel) (σ0 : Heap) (dfRef : Nat)
    (bodyparts : List String) (filter_window order deriv : Int)
    (output_filename : Option String) : Except Err Nat × Heap :=
  let p := heapAlloc σ0 (heapRead σ0 dfRef)
  let σ1 := p.1
  let df := p.2
  let xy := (heapRead σ1 df).map (fun c => c.label.coords != "likelihood")
  match bodyparts with
  | [] => (.error .indexError, σ1)
  | b0 :: _ =>
    let cur := heapRead σ1 df
    let mask :=
      if b0 = "all" then cur.map (fun _ => true)
      else cur.map (fun c => bodyparts.contains c.label.bodyparts)
    let to_smooth := List.zipWith (· && ·) xy mask
    match savgol_filter kernel filter_window order deriv
        ((locCols cur to_smooth).map (fun c => c.values)) with
    | .error e => (.error e, σ1)
    | .ok newVals =>
      let σ2 := heapWrite σ1 df (locSet cur to_smooth newVals)
      let df_cut := locCols (heapRead σ2 df) mask
      match resolveName output_filename (heapRead σ2 df) with
      | .error e => (.error e, σ2)
      | .ok _ =>
        let q := heapAlloc σ2 df_cut
        (.ok q.2, q.1)

/-! ## Concrete frames and kernels used by witnesses and counterexamples -/

/-- A concrete kernel that visibly changes filtered values (adds 1 to every
sample), so that "was filtered" is observable in examples. -/
def kernel1 : Kernel := fun _ _ _ l => l.map (fun v => v + 1)

/-- A two-bodypart frame: scorer `"modelA"`, bodyparts `"nose"` and `"tail"`,
each with `x`, `y`, `likelihood` columns and three rows. -/
def exDf : DataFrame :=
  [⟨⟨"modelA", "nose", "x"⟩, [1, 2, 3]⟩,
   ⟨⟨"modelA", "nose", "y"⟩, [4, 5, 6]⟩,
   ⟨⟨"modelA", "nose", "likelihood"⟩, [7, 8, 9]⟩,
   ⟨⟨"modelA", "tail", "x"⟩, [10, 11, 12]⟩,
   ⟨⟨"modelA", "tail", "y"⟩, [13, 14, 15]⟩,
   ⟨⟨"modelA", "tail", "likelihood"⟩, [16, 17, 18]⟩]

/-- What smoothing `exDf` with `bodyparts=["nose"]`, window 3, order 1,
`deriv` 0 and the `kernel1` kernel returns: the three `"nose"` columns, with
`x` and `y` filtered (shifted by 1) and the likelihood column carried over
unchanged. -/
def exOutNose : DataFrame :=
  [⟨⟨"modelA", "nose", "x"⟩, [2, 3, 4]⟩,
   ⟨⟨"modelA", "nose", "y"⟩, [5, 6, 7]⟩,
   ⟨⟨"modelA", "nose", "likelihood"⟩, [7, 8, 9]⟩]

/-- The column mask of lines 104–107 as a per-column predicate: all-ones when
the first requested bodypart is the sentinel `"all"`, otherwise membership of
the column's bodypart label in the requested list. -/
def maskFun (bodyparts : List String) (b0 : String) (c : Column) : Bool :=
  if b0 = "all" then true else bodyparts.contains c.label.bodyparts

/-- The per-column effect of lines 108–111: a column is filtered exactly when
it is not a likelihood column and its bodypart is selected; other columns keep
their values. -/
def updFun (kernel : Kernel) (filter_window order deriv : Int)
    (q : Column → Bool) (c : Column) : Column :=
  if (c.label.coords != "likelihood") && q c then
    { c with values := kernel filter_window order deriv c.values }
  else c

/-! ## Lemmas about the column-mask primitives -/

lemma zipWith_map_same {α β γ δ : Type} (f : β → γ → δ) (g : α → β) (h : α → γ) :
    ∀ l : List α, List.zipWith f (l.map g) (l.map h) = l.map (fun a => f (g a) (h a)) := by
  intro l
  induction l with
  | nil => rfl
  | cons a l ih => simp [List.zipWith, ih]

lemma locCols_map_mask (h : Column → Column) (q : Column → Bool) :
    ∀ df : DataFrame, locCols (df.map h) (df.map q) = (df.filter q).map h := by
  intro df
  induction df with
  | nil => rfl
  | cons c cs ih =>
    by_cases hq : q c = true <;> simp [locCols, List.filter, hq, ih]

lemma locCols_self (q : Column → Bool) :
    ∀ df : DataFrame, locCols df (df.map q) = df.filter q := by
  intro df
  induction df with
  | nil => rfl
  | cons c cs ih =>
    by_cases hq : q c = true <;> simp [locCols, List.filter, hq, ih]

lemma locSet_fuse (K : List Int → List Int) (tsf : Column → Bool) :
    ∀ df : DataFrame,
      locSet df (df.map tsf) (((locCols df (df.map tsf)).map (fun c => c.values)).map K)
        = df.map (fun c => if tsf c then { c with values := K c.values } else c) := by
  intro df
  induction df with
  | nil => rfl
  | cons c cs ih =>
    simp only [List.map_map] at ih
    by_cases ht : tsf c = true <;> simp [locCols, locSet, ht, ih]

lemma updFun_label (kernel : Kernel) (w o d : Int) (q : Column → Bool) (c : Column) :
    (updFun kernel w o d q c).label = c.label := by
  unfold updFun
  split <;> rfl

lemma mem_uniqueList {a : String} : ∀ {l : List String}, a ∈ l → a ∈ uniqueList l := by
  intro l
  induction l with
  | nil => intro h; cases h
  | cons x xs ih =>
    intro h
    rcases List.mem_cons.1 h with rfl | hxs
    · exact List.mem_cons_self _ _
    · by_cases hax : a = x
      · subst hax; exact List.mem_cons_self _ _
      · refine List.mem_cons_of_mem _ ?_
        exact List.mem_filter.2 ⟨ih hxs, by simpa using hax⟩

lemma resolveName_map_label_eq (h : Column → Column)
    (hl : ∀ c, (h c).label = c.label) (ofn : Option String) (df : DataFrame) :
    resolveName ofn (df.map h) = resolveName ofn df := by
  have hd : defaultName (df.map h) = defaultName df := by
    unfold defaultName
    rw [List.map_map]
    have : ((fun c : Column => c.label.scorer) ∘ h) = fun c : Column => c.label.scorer := by
      funext c; simp [Function.comp, hl]
    rw [this]
  unfold resolveName
  cases ofn with
  | none => exact hd
  | some s =>
    by_cases hs : s = "" <;> simp [hs, hd]

lemma resolveName_ok_of_ne_nil (ofn : Option String) (df : DataFrame) (hdf : df ≠ []) :
    ∃ s, resolveName ofn df = .ok s := by
  have hdn : ∃ s, defaultName df = .ok s := by
    cases df with
    | nil => exact absurd rfl hdf
    | cons c cs => exact ⟨_, rfl⟩
  cases ofn with
  | none => exact hdn
  | some s =>
    by_cases hs : s = ""
    · simpa [resolveName, hs] using hdn
    · exact ⟨s, by simp [resolveName, hs]⟩

lemma mask_eq_map (df : DataFrame) (b0 : String) (bs : List String) :
    (if b0 = "all" then df.map (fun _ => true)
      else df.map (fun c => (b0 :: bs).contains c.label.bodyparts))
      = df.map (maskFun (b0 :: bs) b0) := by
  by_cases hb : b0 = "all"
  · subst hb
    have hf : maskFun ("all" :: bs) "all" = fun _ : Column => true := by
      funext c; simp [maskFun]
    rw [hf, if_pos rfl]
  · have hf : maskFun (b0 :: bs) b0
        = fun c : Column => (b0 :: bs).contains c.label.bodyparts := by
      funext c; simp [maskFun, hb]
    rw [hf, if_neg hb]

lemma updFun_eq_lam (kernel : Kernel) (w o d : Int) (bp : List String) (b0 : String) :
    (fun c : Column =>
      if (c.label.coords != "likelihood") && maskFun bp b0 c then
        { c with values := kernel w o d c.values } else c)
      = updFun kernel w o d (maskFun bp b0) :=
  funext fun _ => rfl

/-- Forward evaluation of `smooth_trajectory` on a non-empty bodypart list,
valid filter parameters and a non-empty frame: it succeeds, and the result is
exactly the mask-selected columns of the input, with the Savitzky–Golay kernel
applied to the non-likelihood selected columns and every other retained column
(in particular every likelihood column) carried over unchanged. -/
lemma smooth_trajectory_fst_ok (kernel : Kernel) (df : DataFrame) (b0 : String)
    (bs : List String) (w o d : Int) (save : Bool) (ofn dfol : Option String)
    (cwd : String)
    (hw : ¬(w ≤ 0 ∨ w % 2 = 0)) (ho : ¬(o < 0 ∨ w ≤ o)) (hdf : df ≠ []) :
    (smooth_trajectory kernel df (b0 :: bs) w o d save ofn dfol cwd).1
      = .ok ((df.filter (maskFun (b0 :: bs) b0)).map
          (updFun kernel w o d (maskFun (b0 :: bs) b0))) := by
  unfold smooth_trajectory
  simp only [mask_eq_map, zipWith_map_same, savgol_filter, if_neg hw, if_neg ho,
    locSet_fuse, updFun_eq_lam, locCols_map_mask]
  obtain ⟨s, hs⟩ := resolveName_ok_of_ne_nil ofn
    (df.map (updFun kernel w o d (maskFun (b0 :: bs) b0))) (by
      intro hnil
      exact hdf (List.map_eq_nil_iff.1 hnil))
  rw [hs]
  cases save <;> rfl

/-- Inversion: whenever `smooth_trajectory` returns a frame, the bodypart list
was non-empty and the returned frame is exactly the mask-selected columns of
the input with the kernel applied to the selected non-likelihood columns. -/
lemma smooth_trajectory_fst_ok_inv (kernel : Kernel) (df : DataFrame)
    (bp : List String) (w o d : Int) (save : Bool) (ofn dfol : Option String)
    (cwd : String) (out : DataFrame)
    (h : (smooth_trajectory kernel df bp w o d save ofn dfol cwd).1 = .ok out) :
    ∃ b0 bs, bp = b0 :: bs ∧
      out = (df.filter (maskFun (b0 :: bs) b0)).map
        (updFun kernel w o d (maskFun (b0 :: bs) b0)) := by
  cases bp with
  | nil => simp [smooth_trajectory] at h
  | cons b0 bs =>
    refine ⟨b0, bs, rfl, ?_⟩
    by_cases hw : w ≤ 0 ∨ w % 2 = 0
    · exfalso
      unfold smooth_trajectory savgol_filter at h
      simp only [if_pos hw] at h
      simp at h
    by_cases ho : o < 0 ∨ w ≤ o
    · exfalso
      unfold smooth_trajectory savgol_filter at h
      simp only [if_neg hw, if_pos ho] at h
      simp at h
    unfold smooth_trajectory at h
    simp only [mask_eq_map, zipWith_map_same, savgol_filter, if_neg hw, if_neg ho,
      locSet_fuse, updFun_eq_lam, locCols_map_mask] at h
    cases hrn : resolveName ofn
        (df.map (updFun kernel w o d (maskFun (b0 :: bs) b0))) with
    | error e => rw [hrn] at h; simp at h
    | ok s =>
      rw [hrn] at h
      cases save <;> simpa using h.symm

lemma updFun_of_likelihood (kernel : Kernel) (w o d : Int) (q : Column → Bool)
    (c : Column) (h : c.label.coords = "likelihood") :
    updFun kernel w o d q c = c := by
  unfold updFun
  simp [h]

lemma maskFun_updFun (bp : List String) (b0 : String) (kernel : Kernel)
    (w o d : Int) (q : Column → Bool) (c : Column) :
    maskFun bp b0 (updFun kernel w o d q c) = maskFun bp b0 c := by
  unfold maskFun
  rw [updFun_label]

lemma updFun_congr_pt (kernel : Kernel) (w o d : Int) (q q' : Column → Bool)
    (c : Column) (h : q c = q' c) :
    updFun kernel w o d q c = updFun kernel w o d q' c := by
  unfold updFun
  rw [h]

/-- An invalid window/order combination makes `savgol_filter` (and hence the
whole call) fail with `InvalidParameter`, whatever the data. -/
lemma smooth_trajectory_invalid (kernel : Kernel) (df : DataFrame) (b0 : String)
    (bs : List String) (w o d : Int) (save : Bool) (ofn dfol : Option String)
    (cwd : String)
    (hinv : (w ≤ 0 ∨ w % 2 = 0) ∨ (o < 0 ∨ w ≤ o)) :
    smooth_trajectory kernel df (b0 :: bs) w o d save ofn dfol cwd
      = (.error .invalidParameter, []) := by
  have hsav : ∀ cols, savgol_filter kernel w o d cols = .error .invalidParameter := by
    intro cols
    unfold savgol_filter
    by_cases h1 : w ≤ 0 ∨ w % 2 = 0
    · rw [if_pos h1]
    · rcases hinv with h | h
      · exact absurd h h1
      · rw [if_neg h1, if_pos h]
  unfold smooth_trajectory
  simp only [hsav]

/-- With a non-empty frame, smoothing with the derived full bodypart list is
the same computation as smoothing with the `["all"]` sentinel: in both cases
the column mask is all-ones. -/
lemma smooth_unique_eq_all (kernel : Kernel) (df : DataFrame) (w o : Int)
    (cwd : String) (hdf : df ≠ []) :
    (smooth_trajectory kernel df
        (uniqueList (df.map (fun c => c.label.bodyparts))) w o 0 false none none cwd).1
      = (smooth_trajectory kernel df ["all"] w o 0 false none none cwd).1 := by
  obtain ⟨u0, us, hul⟩ : ∃ u0 us,
      uniqueList (df.map (fun c => c.label.bodyparts)) = u0 :: us := by
    cases df with
    | nil => exact absurd rfl hdf
    | cons c cs => exact ⟨_, _, rfl⟩
  rw [hul]
  by_cases hv : (w ≤ 0 ∨ w % 2 = 0) ∨ (o < 0 ∨ w ≤ o)
  · rw [congrArg Prod.fst
        (smooth_trajectory_invalid kernel df u0 us w o 0 false none none cwd hv),
      congrArg Prod.fst
        (smooth_trajectory_invalid kernel df "all" [] w o 0 false none none cwd hv)]
  · have hw : ¬(w ≤ 0 ∨ w % 2 = 0) := fun h => hv (Or.inl h)
    have ho : ¬(o < 0 ∨ w ≤ o) := fun h => hv (Or.inr h)
    rw [smooth_trajectory_fst_ok kernel df u0 us w o 0 false none none cwd hw ho hdf,
      smooth_trajectory_fst_ok kernel df "all" [] w o 0 false none none cwd hw ho hdf]
    have hpt : ∀ c ∈ df, maskFun (u0 :: us) u0 c = maskFun ["all"] "all" c := by
      intro c hc
      have hmem : c.label.bodyparts ∈ u0 :: us := by
        rw [← hul]
        exact mem_uniqueList (List.mem_map_of_mem (fun c => c.label.bodyparts) hc)
      unfold maskFun
      by_cases hb : u0 = "all"
      · rw [if_pos hb, if_pos rfl]
      · rw [if_neg hb, if_pos rfl]
        exact List.elem_eq_true_of_mem hmem
    rw [List.filter_congr hpt]
    exact congrArg Except.ok
      (List.map_eq_map_iff.mpr (fun c hc =>
        updFun_congr_pt kernel w o 0 _ _ c (hpt c (List.mem_of_mem_filter hc))))

lemma heapRead_append (σ : Heap) (d : DataFrame) (r : Nat) (h : r < σ.length) :
    heapRead (σ ++ [d]) r = heapRead σ r := by
  unfold heapRead
  rw [List.get?_eq_getElem?, List.get?_eq_getElem?, List.getElem?_append_left h]

lemma heapRead_write_ne (σ : Heap) (i r : Nat) (v : DataFrame) (h : i ≠ r) :
    heapRead (heapWrite σ i v) r = heapRead σ r := by
  unfold heapRead heapWrite
  rw [List.get?_eq_getElem?, List.get?_eq_getElem?, List.getElem?_set_ne h]

/-! ## The claims -/

/-- C9: calling `smooth_trajectory` with an empty bodyparts list fails with an
`IndexError` before any filtering, selection or persistence happens (the
select-all test `bodyparts[0] == "all"` subscripts the empty list), so no
frame is returned and no file is written. -/
theorem C9_empty_bodyparts_index_error (kernel : Kernel) (df : DataFrame)
    (w o d : Int) (save : Bool) (ofn dfol : Option String) (cwd : String) :
    smooth_trajectory kernel df [] w o d save ofn dfol cwd
      = (.error .indexError, []) := rfl

/-- C5: an even `filter_window`, an `order ≥ filter_window`, or a negative
value for either, makes `smooth_trajectory` fail with `InvalidParameter`
instead of returning a table (and nothing is written). -/
theorem C5_invalid_window_order_error (kernel : Kernel) (df : DataFrame)
    (b0 : String) (bs : List String) (w o d : Int) (save : Bool)
    (ofn dfol : Option String) (cwd : String)
    (hinv : w % 2 = 0 ∨ w ≤ o ∨ w < 0 ∨ o < 0) :
    smooth_trajectory kernel df (b0 :: bs) w o d save ofn dfol cwd
      = (.error .invalidParameter, []) := by
  refine smooth_trajectory_invalid kernel df b0 bs w o d save ofn dfol cwd ?_
  rcases hinv with h | h | h | h
  · exact Or.inl (Or.inr h)
  · exact Or.inr (Or.inr h)
  · exact Or.inl (Or.inl (le_of_lt h))
  · exact Or.inr (Or.inl h)

/-- Witness for C5 at a concrete input: `filter_window = 4` (even). -/
theorem C5_witness :
    smooth_trajectory kernel1 exDf ["nose"] 4 1 0 false none none ""
      = (.error .invalidParameter, []) :=
  C5_invalid_window_order_error kernel1 exDf "nose" [] 4 1 0 false none none ""
    (Or.inl (by decide))

/-- C8: with `save=True`, when the call fails (in particular when the filter
step rejects the window/order), the write trace is empty — persistence happens
only after the in-memory transform has succeeded, so no partial output file is
left behind. -/
theorem C8_no_write_on_failure (kernel : Kernel) (df : DataFrame)
    (bp : List String) (w o d : Int) (ofn dfol : Option String) (cwd : String)
    (e : Err)
    (h : (smooth_trajectory kernel df bp w o d true ofn dfol cwd).1 = .error e) :
    (smooth_trajectory kernel df bp w o d true ofn dfol cwd).2 = [] := by
  cases bp with
  | nil => rfl
  | cons b0 bs =>
    by_cases hv : (w ≤ 0 ∨ w % 2 = 0) ∨ (o < 0 ∨ w ≤ o)
    · rw [smooth_trajectory_invalid kernel df b0 bs w o d true ofn dfol cwd hv]
    · have hw : ¬(w ≤ 0 ∨ w % 2 = 0) := fun hx => hv (Or.inl hx)
      have ho : ¬(o < 0 ∨ w ≤ o) := fun hx => hv (Or.inr hx)
      unfold smooth_trajectory at h ⊢
      simp only [mask_eq_map, zipWith_map_same, savgol_filter, if_neg hw,
        if_neg ho, locSet_fuse, updFun_eq_lam, locCols_map_mask] at h ⊢
      cases hrn : resolveName ofn
          (df.map (updFun kernel w o d (maskFun (b0 :: bs) b0))) with
      | error e2 => simp
      | ok s =>
        rw [hrn] at h
        simp at h

/-- Witness for C8 at a concrete input: `save=True` with the even window 4
fails and writes nothing. -/
theorem C8_witness :
    (smooth_trajectory kernel1 exDf ["nose"] 4 1 0 true none none "/data").2 = [] :=
  C8_no_write_on_failure kernel1 exDf ["nose"] 4 1 0 none none "/data"
    .invalidParameter (by rfl)

/-- C2: every likelihood-labelled column present in the output of
`smooth_trajectory` is literally a column of the input frame — likelihood
columns are never passed through the filter and their values are never
altered. -/
theorem C2_likelihood_columns_unchanged (kernel : Kernel) (df : DataFrame)
    (bp : List String) (w o d : Int) (save : Bool) (ofn dfol : Option String)
    (cwd : String) (out : DataFrame)
    (h : (smooth_trajectory kernel df bp w o d save ofn dfol cwd).1 = .ok out) :
    ∀ c ∈ out, c.label.coords = "likelihood" → c ∈ df := by
  obtain ⟨b0, bs, rfl, hout⟩ :=
    smooth_trajectory_fst_ok_inv kernel df bp w o d save ofn dfol cwd out h
  subst hout
  intro c hc hlik
  obtain ⟨c', hc', hcc⟩ := List.mem_map.1 hc
  have hl' : c'.label.coords = "likelihood" := by
    calc c'.label.coords
        = (updFun kernel w o d (maskFun (b0 :: bs) b0) c').label.coords := by
          rw [updFun_label]
      _ = c.label.coords := by rw [hcc]
      _ = "likelihood" := hlik
  have hceq : c = c' := by
    rw [← hcc, updFun_of_likelihood kernel w o d _ c' hl']
  rw [hceq]
  exact List.mem_of_mem_filter hc'

/-- Witness for C2 at a concrete input: the `"nose"` likelihood column of the
output of smoothing `exDf` is a column of `exDf` itself. -/
theorem C2_witness :
    (⟨⟨"modelA", "nose", "likelihood"⟩, [7, 8, 9]⟩ : Column) ∈ exDf :=
  C2_likelihood_columns_unchanged kernel1 exDf ["nose"] 3 1 0 false none none ""
    exOutNose (by rfl) ⟨⟨"modelA", "nose", "likelihood"⟩, [7, 8, 9]⟩
    (by decide) rfl

/-- C3: when the kernel preserves column length (scipy's documented behaviour
for the default `mode='interp'`) every column of the output has exactly the
input's row count, and the column count never grows (it shrinks exactly to the
selected columns). -/
theorem C3_row_count_preserved (kernel : Kernel) (df : DataFrame)
    (bp : List String) (w o d : Int) (save : Bool) (ofn dfol : Option String)
    (cwd : String) (out : DataFrame) (n : Nat)
    (hk : ∀ w' o' d' l, (kernel w' o' d' l).length = l.length)
    (hn : ∀ c ∈ df, c.values.length = n)
    (h : (smooth_trajectory kernel df bp w o d save ofn dfol cwd).1 = .ok out) :
    (∀ c ∈ out, c.values.length = n) ∧ out.length ≤ df.length := by
  obtain ⟨b0, bs, rfl, hout⟩ :=
    smooth_trajectory_fst_ok_inv kernel df bp w o d save ofn dfol cwd out h
  subst hout
  constructor
  · intro c hc
    obtain ⟨c', hc', rfl⟩ := List.mem_map.1 hc
    have hdf' : c' ∈ df := List.mem_of_mem_filter hc'
    unfold updFun
    split
    · simpa [hk] using hn c' hdf'
    · exact hn c' hdf'
  · rw [List.length_map]
    exact List.length_filter_le _ _

/-- Witness for C3 at a concrete input: smoothing `exDf` (three rows) down to
`"nose"` keeps at most the original column count; the row-count clause is
instantiated in the application. -/
theorem C3_witness : exOutNose.length ≤ exDf.length :=
  (C3_row_count_preserved kernel1 exDf ["nose"] 3 1 0 false none none ""
    exOutNose 3
    (fun w' o' d' l => by simp [kernel1])
    (by decide) (by rfl)).2

/-- C4: the caller's frame object is never mutated.  In the explicit-heap
rendering of `smooth_trajectory` (line 102 `df = df.copy()` allocates, the
filter assignment writes only through the fresh local reference), after the
call — successful or not — the object behind the caller's reference is exactly
what it was before. -/
theorem C4_caller_frame_unchanged (kernel : Kernel) (σ : Heap) (dfRef : Nat)
    (bp : List String) (w o d : Int) (ofn : Option String)
    (hr : dfRef < σ.length) :
    heapRead (smooth_trajectory_heap kernel σ dfRef bp w o d ofn).2 dfRef
      = heapRead σ dfRef := by
  have hne : σ.length ≠ dfRef := ne_of_gt hr
  simp only [smooth_trajectory_heap, heapAlloc]
  cases bp with
  | nil => exact heapRead_append σ _ dfRef hr
  | cons b0 bs =>
    split
    · exact heapRead_append σ _ dfRef hr
    · split
      · exact heapRead_append σ _ dfRef hr
      · split
        · rw [heapRead_write_ne _ _ _ _ hne]
          exact heapRead_append σ _ dfRef hr
        · rw [heapRead_append _ _ dfRef (by simp [heapWrite]; omega),
            heapRead_write_ne _ _ _ _ hne]
          exact heapRead_append σ _ dfRef hr

/-- Witness for C4 at a concrete input: a singleton heap holding `exDf`. -/
theorem C4_witness :
    heapRead (smooth_trajectory_heap kernel1 [exDf] 0 ["nose"] 3 1 0 none).2 0
      = heapRead [exDf] 0 :=
  C4_caller_frame_unchanged kernel1 [exDf] 0 ["nose"] 3 1 0 none (by decide)

/-- C6: with an explicit (non-`"all"`-headed) bodyparts list, valid filter
parameters and a non-empty frame, the call succeeds and the output columns are
exactly the input columns whose bodypart label is among the requested ones —
requested labels not present in the frame contribute no columns and cause no
error. -/
theorem C6_explicit_selection (kernel : Kernel) (df : DataFrame) (b0 : String)
    (bs : List String) (w o d : Int) (save : Bool) (ofn dfol : Option String)
    (cwd : String)
    (hb0 : b0 ≠ "all") (hw : ¬(w ≤ 0 ∨ w % 2 = 0)) (ho : ¬(o < 0 ∨ w ≤ o))
    (hdf : df ≠ []) :
    ((smooth_trajectory kernel df (b0 :: bs) w o d save ofn dfol cwd).1).map
        (fun out => out.map (fun c => c.label))
      = .ok ((df.filter (fun c => (b0 :: bs).contains c.label.bodyparts)).map
          (fun c => c.label)) := by
  rw [smooth_trajectory_fst_ok kernel df b0 bs w o d save ofn dfol cwd hw ho hdf]
  have hm : maskFun (b0 :: bs) b0
      = fun c : Column => (b0 :: bs).contains c.label.bodyparts := by
    funext c; simp [maskFun, hb0]
  rw [hm]
  simp only [Except.map]
  congr 1
  rw [List.map_map]
  exact List.map_eq_map_iff.mpr (fun c _ => by
    simp [Function.comp, updFun_label])

/-- Witness for C6 at a concrete input, including an absent label
(`"ghost"`): the call succeeds and only `"nose"` columns survive. -/
theorem C6_witness :
    ((smooth_trajectory kernel1 exDf ["nose", "ghost"] 3 1 0 false none none "").1).map
        (fun out => out.map (fun c => c.label))
      = .ok ((exDf.filter
          (fun c => (["nose", "ghost"] : List String).contains c.label.bodyparts)).map
          (fun c => c.label)) :=
  C6_explicit_selection kernel1 exDf "nose" ["ghost"] 3 1 0 false none none ""
    (by decide) (by decide) (by decide) (by decide)

/-- C1 is refuted at a concrete input: smoothing `exDf` with
`bodyparts=["nose"]` returns the three `"nose"` columns *including* the
likelihood column (with its unfiltered values `[7,8,9]`) — the likelihood
columns of the selected bodyparts are retained, not dropped as the claim
states. -/
theorem C1_counterexample :
    (smooth_trajectory kernel1 exDf ["nose"] 3 1 0 false none none "").1
      = .ok exOutNose
    ∧ exOutNose.any (fun c => c.label.coords == "likelihood") = true :=
  ⟨by rfl, by decide⟩

/-- C1 (amended): for every input table and bodypart selection, with valid
filter parameters and a non-empty frame, the output contains only columns
whose bodypart label matches the selection, and the likelihood columns of the
selected bodyparts are retained in the output with their values unchanged
(not dropped). -/
theorem C1_amended_selected_columns (kernel : Kernel) (df : DataFrame)
    (b0 : String) (bs : List String) (w o d : Int) (save : Bool)
    (ofn dfol : Option String) (cwd : String)
    (hw : ¬(w ≤ 0 ∨ w % 2 = 0)) (ho : ¬(o < 0 ∨ w ≤ o)) (hdf : df ≠ []) :
    ∃ out,
      (smooth_trajectory kernel df (b0 :: bs) w o d save ofn dfol cwd).1 = .ok out
      ∧ (∀ c ∈ out, maskFun (b0 :: bs) b0 c = true)
      ∧ (∀ c ∈ df, c.label.coords = "likelihood" →
          maskFun (b0 :: bs) b0 c = true → c ∈ out) := by
  refine ⟨_, smooth_trajectory_fst_ok kernel df b0 bs w o d save ofn dfol cwd
    hw ho hdf, ?_, ?_⟩
  · intro c hc
    obtain ⟨c', hc', rfl⟩ := List.mem_map.1 hc
    rw [maskFun_updFun]
    exact (List.mem_filter.1 hc').2
  · intro c hc hlik hmask
    have hmem : c ∈ df.filter (maskFun (b0 :: bs) b0) :=
      List.mem_filter.2 ⟨hc, hmask⟩
    have h2 := List.mem_map_of_mem
      (updFun kernel w o d (maskFun (b0 :: bs) b0)) hmem
    rwa [updFun_of_likelihood kernel w o d _ c hlik] at h2

/-- Witness for the amended C1 at a concrete input. -/
theorem C1_witness :
    ∃ out,
      (smooth_trajectory kernel1 exDf ["nose"] 3 1 0 false none none "").1 = .ok out
      ∧ (∀ c ∈ out, maskFun ["nose"] "nose" c = true)
      ∧ (∀ c ∈ exDf, c.label.coords = "likelihood" →
          maskFun ["nose"] "nose" c = true → c ∈ out) :=
  C1_amended_selected_columns kernel1 exDf "nose" [] 3 1 0 false none none ""
    (by decide) (by decide) (by decide)

/-- C10: the select-all behaviour is decided by the first element of the
bodyparts list alone.  A list headed by `"all"` behaves exactly like the
`["all"]` sentinel whatever its remaining entries; a list not headed by
`"all"` never triggers select-all: it selects by bodypart-label membership
(so an `"all"` in a later position is just an ordinary label). -/
theorem C10_first_element_sentinel (kernel : Kernel) (df : DataFrame)
    (b0 : String) (bs : List String) (w o d : Int) (save : Bool)
    (ofn dfol : Option String) (cwd : String) :
    (b0 = "all" →
      smooth_trajectory kernel df (b0 :: bs) w o d save ofn dfol cwd
        = smooth_trajectory kernel df ["all"] w o d save ofn dfol cwd)
    ∧ (b0 ≠ "all" → ¬(w ≤ 0 ∨ w % 2 = 0) → ¬(o < 0 ∨ w ≤ o) → df ≠ [] →
      (smooth_trajectory kernel df (b0 :: bs) w o d save ofn dfol cwd).1
        = .ok ((df.filter
            (fun c => (b0 :: bs).contains c.label.bodyparts)).map
            (updFun kernel w o d
              (fun c => (b0 :: bs).contains c.label.bodyparts)))) := by
  constructor
  · intro hb
    subst hb
    simp [smooth_trajectory]
  · intro hb0 hw ho hdf
    rw [smooth_trajectory_fst_ok kernel df b0 bs w o d save ofn dfol cwd hw ho hdf]
    have hm : maskFun (b0 :: bs) b0
        = fun c : Column => (b0 :: bs).contains c.label.bodyparts := by
      funext c; simp [maskFun, hb0]
    rw [hm]

/-- Witness for C10 at concrete inputs: `["all","junk"]` behaves like
`["all"]`, and `["nose","all"]` (the sentinel in a later position) selects by
membership, not select-all. -/
theorem C10_witness :
    smooth_trajectory kernel1 exDf ["all", "junk"] 3 1 0 false none none ""
      = smooth_trajectory kernel1 exDf ["all"] 3 1 0 false none none ""
    ∧ (smooth_trajectory kernel1 exDf ["nose", "all"] 3 1 0 false none none "").1
      = .ok ((exDf.filter
          (fun c => (["nose", "all"] : List String).contains c.label.bodyparts)).map
          (updFun kernel1 3 1 0
            (fun c => (["nose", "all"] : List String).contains c.label.bodyparts))) :=
  ⟨(C10_first_element_sentinel kernel1 exDf "all" ["junk"] 3 1 0 false none none "").1 rfl,
   (C10_first_element_sentinel kernel1 exDf "nose" ["all"] 3 1 0 false none none "").2
     (by decide) (by decide) (by decide) (by decide)⟩

/-- C7: for a non-empty frame, loading with `smooth=True` returns exactly what
loading with `smooth=False` and then smoothing with the `["all"]` sentinel,
`deriv=0` and `save=False` returns: the loader's delegation with the derived
bodypart list is equivalent to select-all smoothing with no persistence. -/
theorem C7_load_smooth_delegation (kernel : Kernel) (df : DataFrame)
    (w o : Int) (cwd : String) (hdf : df ≠ []) :
    load_data kernel df true w o cwd
      = match load_data kernel df false w o cwd with
        | .error e => .error e
        | .ok (t, bps, sc) =>
          match (smooth_trajectory kernel t ["all"] w o 0 false none none cwd).1 with
          | .error e => .error e
          | .ok t2 => .ok (t2, bps, sc) := by
  cases df with
  | nil => exact absurd rfl hdf
  | cons c0 cs =>
    simp only [load_data]
    rw [smooth_unique_eq_all kernel (c0 :: cs) w o cwd (by simp)]
    cases hs : (smooth_trajectory kernel (c0 :: cs) ["all"] w o 0 false none none cwd).1 <;>
      simp [hs]

/-- Witness for C7 at a concrete input. -/
theorem C7_witness :
    load_data kernel1 exDf true 3 1 ""
      = match load_data kernel1 exDf false 3 1 "" with
        | .error e => .error e
        | .ok (t, bps, sc) =>
          match (smooth_trajectory kernel1 t ["all"] 3 1 0 false none none "").1 with
          | .error e => .error e
          | .ok t2 => .ok (t2, bps, sc) :=
  C7_load_smooth_delegation kernel1 exDf 3 1 "" (by decide)

end DLC2Kinematics
